import Mathlib

/-!
# Authorization and ownership rules of the resource routes

A shallow embedding of `backend/controllers/resourceController.js` and
`backend/routes/resourceRoutes.js`, with `deleteUser` of `controllers/userController.js`.

* A handler is a function from the request and the store to a `Run`: the response it
  sends, the store it leaves behind and the store calls it issued, in order.
* Identifiers, roles and field values are strings, as in the JavaScript source.
* The request body is what `express.json()` (`app.js`) passes on: a JSON object or a JSON
  array.
* The Mongoose models `Resource` and `User` are in-memory collections.  `populate` replaces
  the `createdBy` reference of a document by the user document it names, or by `null` when
  that user is gone.
* `protect` and `authorize` live in `middleware/auth`, whose source is not available; they
  are modelled from the specification.
-/

namespace Rbac

/-! ## Data model -/

/-- Authenticated user that `protect` attaches to the request as `req.user`. -/
structure Principal where
  id : String
  role : String
deriving DecidableEq, Repr

/-- JSON object, as sent in a request body or handed to the store as a document: its keys
with their values, in insertion order. -/
abbrev Body := List (String × String)

/-- Property read `obj[k]`: the value of the first entry with key `k`. -/
def Body.lookup (k : String) : Body → Option String
  | [] => none
  | (k', v) :: rest => if k' = k then some v else Body.lookup k rest

/-- Property assignment `obj[k] = v`: an existing key keeps its place and takes the new
value, a new key is appended. -/
def Body.assign (k v : String) : Body → Body
  | [] => [(k, v)]
  | (k', v') :: rest => if k' = k then (k, v) :: rest else (k', v') :: Body.assign k v rest

/-- Value of `req.body`: a JSON object, or a JSON array of objects.  A JavaScript array is
itself an object, so next to its elements it carries the named properties assigned to it;
a freshly parsed array has none. -/
inductive ReqBody where
  | object (fields : Body)
  | array (items : List Body) (props : Body)
deriving DecidableEq, Repr

/-- Property assignment `req.body[k] = v`.  On an array the property is set on the array
object; its elements are not touched. -/
def ReqBody.assign (k v : String) : ReqBody → ReqBody
  | .object fields => .object (Body.assign k v fields)
  | .array items props => .array items (Body.assign k v props)

/-- Document of the `User` collection, with the paths `populate` selects. -/
structure User where
  _id : String
  name : String
  email : String
deriving DecidableEq, Repr

/-- Document of the `Resource` collection. -/
structure Resource where
  _id : String
  createdBy : String
  fields : Body
deriving DecidableEq, Repr

/-- Resource document after `populate('createdBy', 'name email')`: `createdBy` holds the
user document, or `null` when no user has that id. -/
structure PopulatedResource where
  _id : String
  createdBy : Option User
  fields : Body
deriving DecidableEq, Repr

/-- Contents of the `Resource` collection, the counter new `_id`s are drawn from, and the
contents of the `User` collection. -/
structure Store where
  resources : List Resource
  nextId : Nat
  users : List User
deriving DecidableEq, Repr

/-! ## The store (Mongoose models `Resource` and `User`) -/

/-- Query `Resource.find()` (no filter) or `Resource.find({ createdBy: owner })`. -/
def Store.find (db : Store) (filter : Option String) : List Resource :=
  match filter with
  | none => db.resources
  | some owner => db.resources.filter (fun r => decide (r.createdBy = owner))

/-- Query `Resource.findById(id)`: the document with this `_id`, or `null`. -/
def Store.findById (db : Store) (id : String) : Option Resource :=
  db.resources.find? (fun r => decide (r._id = id))

/-- Query option `.populate('createdBy', 'name email')` applied to a found document. -/
def Store.populate (db : Store) (r : Resource) : PopulatedResource :=
  ⟨r._id, db.users.find? (fun u => decide (u._id = r.createdBy)), r.fields⟩

/-- Effect of a plain update object on a document: every listed path is set.  `createdBy`
is a path like any other; `_id` cannot be changed. -/
def Resource.applyUpdate (r : Resource) (update : Body) : Resource :=
  ⟨r._id,
   (Body.lookup "createdBy" update).getD r.createdBy,
   update.foldl
     (fun acc kv => if kv.1 = "createdBy" ∨ kv.1 = "_id" then acc else Body.assign kv.1 kv.2 acc)
     r.fields⟩

/-- Update of the document with this `_id` (a unique key) by a plain update object; the
updated document is returned, or `null` when there is none. -/
def Store.updateById (db : Store) (id : String) (update : Body) : Option Resource × Store :=
  let db' : Store :=
    ⟨db.resources.map (fun r => if r._id = id then r.applyUpdate update else r), db.nextId,
     db.users⟩
  (db'.findById id, db')

/-- Command `Resource.findByIdAndUpdate(id, update, { new: true, runValidators: true })`.
An object is a plain update.  An array is read as an update pipeline, whose stages must be
operators: an array of plain documents is rejected and nothing is written. -/
def Store.findByIdAndUpdate (db : Store) (id : String) (update : ReqBody) :
    Except String (Option Resource × Store) :=
  match update with
  | .object fields => .ok (db.updateById id fields)
  | .array _ _ => .error "Invalid update pipeline operator"

/-- Command `Resource.findByIdAndDelete(id)`: the document with this `_id` is removed and
returned, or `null` when there is none. -/
def Store.findByIdAndDelete (db : Store) (id : String) : Option Resource × Store :=
  (db.findById id,
   ⟨db.resources.filter (fun r => !decide (r._id = id)), db.nextId, db.users⟩)

/-- Saving one new document: it gets a fresh `_id` and is appended.  A document without an
owner reference is rejected. -/
def Store.insert (db : Store) (doc : Body) : Except String (Resource × Store) :=
  match Body.lookup "createdBy" doc with
  | none => .error "Resource validation failed: createdBy"
  | some owner =>
    let r : Resource :=
      ⟨toString db.nextId, owner, doc.filter (fun kv => !decide (kv.1 = "createdBy"))⟩
    .ok (r, ⟨db.resources ++ [r], db.nextId + 1, db.users⟩)

/-- Saving the documents of an array one after the other; the first rejected document ends
the call. -/
def Store.insertEach (db : Store) : List Body → Except String (List Resource) × Store
  | [] => (.ok [], db)
  | doc :: rest =>
    match db.insert doc with
    | .error reason => (.error reason, db)
    | .ok (r, db') =>
      match Store.insertEach db' rest with
      | (.ok saved, db'') => (.ok (r :: saved), db'')
      | (.error reason, db'') => (.error reason, db'')

/-! ## Requests, responses and runs -/

/-- Value of `new ErrorResponse(message, statusCode)`. -/
structure ErrorResponse where
  message : String
  statusCode : Nat
deriving DecidableEq, Repr

/-- Reason a middleware of the chain stops the request with. -/
inductive Denial where
  | Unauthenticated
  | InsufficientRole
deriving DecidableEq, Repr

/-- JSON body of a successful response; `success: true` is common to all of them. -/
inductive Payload where
  /-- Object `{ success, count, data }` of the list handler. -/
  | many (count : Nat) (data : List Resource)
  /-- Object `{ success, data }` carrying one document (or `null`). -/
  | one (data : Option Resource)
  /-- Object `{ success, data: {} }` of the delete handlers. -/
  | empty
  /-- Object `{ success, data }` carrying one populated document. -/
  | populated (data : PopulatedResource)
  /-- Object `{ success, data }` carrying the array of documents created from an array. -/
  | docs (data : List Resource)
deriving DecidableEq, Repr

/-- Command `Resource.create(doc)`.  An object is saved as one document; of an array every
element is saved as a document of its own, and the array's named properties are not part
of any of them. -/
def Store.create (db : Store) (doc : ReqBody) : Except String Payload × Store :=
  match doc with
  | .object fields =>
    match db.insert fields with
    | .error reason => (.error reason, db)
    | .ok (r, db') => (.ok (.one (some r)), db')
  | .array items _ =>
    match db.insertEach items with
    | (.ok saved, db') => (.ok (.docs saved), db')
    | (.error reason, db') => (.error reason, db')

/-- Command `User.findByIdAndDelete(id)`: the user with this `_id` is removed.  The
resources that user created are left as they are. -/
def Store.userFindByIdAndDelete (db : Store) (id : String) : Store :=
  ⟨db.resources, db.nextId, db.users.filter (fun u => !decide (u._id = id))⟩

/-- What the request ends with. -/
inductive Response where
  /-- Call `res.status(status).json(payload)`. -/
  | json (status : Nat) (payload : Payload)
  /-- Call `next(new ErrorResponse(message, statusCode))` made by a handler. -/
  | error (e : ErrorResponse)
  /-- An exception or a rejected store call inside the handler, which `asyncHandler`
  forwards to `next`. -/
  | thrown (reason : String)
  /-- The request was stopped by `protect` or `authorize`. -/
  | denied (d : Denial)
deriving DecidableEq, Repr

/-- Call made on a model. -/
inductive StoreCall where
  | find (filter : Option String)
  | findById (id : String)
  | create (doc : ReqBody)
  | findByIdAndUpdate (id : String) (update : ReqBody)
  | findByIdAndDelete (id : String)
  | userFindByIdAndDelete (id : String)
deriving DecidableEq, Repr

/-- Outcome of running a handler or a middleware chain: the response, the store afterwards
and the store calls issued, in order. -/
structure Run where
  response : Response
  store : Store
  calls : List StoreCall
deriving DecidableEq, Repr

/-- The parts of the Express request the handlers read: `req.user`, `req.params.id` and
`req.body`. -/
structure Request where
  user : Principal
  id : String
  body : ReqBody
deriving DecidableEq, Repr

/-! ## `backend/controllers/resourceController.js` -/

/-- Handler `getResources` (GET /api/resources).  The documents are populated for the
payload only: the handler reads no path of them. -/
def getResources (req : Request) (db : Store) : Run :=
  let query : Option String :=
    if req.user.role = "admin" then none
    else if req.user.role = "moderator" then none
    else some req.user.id
  let resources := db.find query
  ⟨.json 200 (.many resources.length resources), db, [.find query]⟩

/-- Handler `getResource` (GET /api/resources/:id).  The check reads
`resource.createdBy._id` first: on a populated `createdBy` of `null` that read throws a
`TypeError` before any role is looked at. -/
def getResource (req : Request) (db : Store) : Run :=
  match db.findById req.id with
  | none =>
    ⟨.error ⟨"Resource not found with id of " ++ req.id, 404⟩, db, [.findById req.id]⟩
  | some found =>
    let resource := db.populate found
    match resource.createdBy with
    | none =>
      ⟨.thrown "TypeError: Cannot read properties of null (reading '_id')", db,
       [.findById req.id]⟩
    | some createdBy =>
      if createdBy._id ≠ req.user.id ∧ req.user.role ≠ "admin" ∧
          req.user.role ≠ "moderator" then
        ⟨.error ⟨"User " ++ req.user.id ++ " is not authorized to access this resource", 401⟩,
         db, [.findById req.id]⟩
      else
        ⟨.json 200 (.populated resource), db, [.findById req.id]⟩

/-- Handler `createResource` (POST /api/resources). -/
def createResource (req : Request) (db : Store) : Run :=
  let body := ReqBody.assign "createdBy" req.user.id req.body
  match db.create body with
  | (.error reason, db') => ⟨.thrown reason, db', [.create body]⟩
  | (.ok data, db') => ⟨.json 201 data, db', [.create body]⟩

/-- Handler `updateResource` (PUT /api/resources/:id). -/
def updateResource (req : Request) (db : Store) : Run :=
  match db.findById req.id with
  | none =>
    ⟨.error ⟨"Resource not found with id of " ++ req.id, 404⟩, db, [.findById req.id]⟩
  | some resource =>
    if resource.createdBy ≠ req.user.id ∧ req.user.role ≠ "admin" then
      ⟨.error ⟨"User " ++ req.user.id ++ " is not authorized to update this resource", 401⟩,
       db, [.findById req.id]⟩
    else
      match db.findByIdAndUpdate req.id req.body with
      | .error reason =>
        ⟨.thrown reason, db, [.findById req.id, .findByIdAndUpdate req.id req.body]⟩
      | .ok updated =>
        ⟨.json 200 (.one updated.1), updated.2,
         [.findById req.id, .findByIdAndUpdate req.id req.body]⟩

/-- Handler `deleteResource` (DELETE /api/resources/:id). -/
def deleteResource (req : Request) (db : Store) : Run :=
  match db.findById req.id with
  | none =>
    ⟨.error ⟨"Resource not found with id of " ++ req.id, 404⟩, db, [.findById req.id]⟩
  | some _ =>
    if req.user.role ≠ "admin" then
      ⟨.error ⟨"User " ++ req.user.id ++ " is not authorized to delete this resource", 401⟩,
       db, [.findById req.id]⟩
    else
      ⟨.json 200 .empty, (db.findByIdAndDelete req.id).2,
       [.findById req.id, .findByIdAndDelete req.id]⟩

/-! ## `controllers/userController.js` -/

/-- Handler `deleteUser` (DELETE /api/users/:id, behind `authorize('admin')`). -/
def deleteUser (req : Request) (db : Store) : Run :=
  ⟨.json 200 .empty, db.userFindByIdAndDelete req.id, [.userFindByIdAndDelete req.id]⟩

/-! ## `backend/routes/resourceRoutes.js` -/

/-- Modelled from the spec: the middleware `protect` of `middleware/auth` (not in the
sources).  The principal resolver either produces the authenticated principal or fails
with `Unauthenticated`; `resolved` is its outcome for the request's credential. -/
def protect (resolved : Option Principal) : Except Denial Principal :=
  match resolved with
  | none => .error .Unauthenticated
  | some user => .ok user

/-- Modelled from the spec: the middleware factory `authorize(...roles)` of
`middleware/auth` (not in the sources).  It passes exactly the principals whose role is
listed and stops every other one with `InsufficientRole`. -/
def authorize (roles : List String) (user : Principal) : Except Denial Unit :=
  if user.role ∈ roles then .ok () else .error .InsufficientRole

/-- The five routes of the resource router. -/
inductive Route where
  /-- The route GET `/`. -/
  | list
  /-- The route POST `/`. -/
  | post
  /-- The route GET `/:id`. -/
  | get (id : String)
  /-- The route PUT `/:id`. -/
  | put (id : String)
  /-- The route DELETE `/:id`. -/
  | delete (id : String)
deriving DecidableEq, Repr

/-- A route handler placed behind `authorize(...roles)`: the handler runs only when the
gate passes; otherwise the store is neither read nor written. -/
def gated (roles : List String) (handler : Request → Store → Run)
    (req : Request) (db : Store) : Run :=
  match authorize roles req.user with
  | .error d => ⟨.denied d, db, []⟩
  | .ok _ => handler req db

/-- The resource router: `router.use(protect)` followed by the route table. -/
def router (route : Route) (resolved : Option Principal) (body : ReqBody) (db : Store) :
    Run :=
  match protect resolved with
  | .error d => ⟨.denied d, db, []⟩
  | .ok user =>
    match route with
    | .list => getResources ⟨user, "", body⟩ db
    | .post => gated ["moderator", "admin"] createResource ⟨user, "", body⟩ db
    | .get id => getResource ⟨user, id, body⟩ db
    | .put id => gated ["moderator", "admin"] updateResource ⟨user, id, body⟩ db
    | .delete id => gated ["admin"] deleteResource ⟨user, id, body⟩ db

/-- A run ended in a successful response. -/
def Run.allowed (run : Run) : Bool :=
  match run.response with
  | .json _ _ => true
  | _ => false

/-- Records a run returned in a list payload. -/
def Run.listed (run : Run) : List Resource :=
  match run.response with
  | .json _ (.many _ data) => data
  | _ => []

/-! ## Sample data -/

/-- Store with record `r1` owned by `u2` and record `r2` owned by `u1`; the users are
`u1`, `u2` and `u9`. -/
def sampleStore : Store :=
  ⟨[⟨"r1", "u2", [("title", "first")]⟩, ⟨"r2", "u1", [("title", "second")]⟩], 2,
   [⟨"u1", "Ann", "ann@example.org"⟩, ⟨"u2", "Bob", "bob@example.org"⟩,
    ⟨"u9", "Root", "root@example.org"⟩]⟩

/-! ## Request bodies -/

theorem Body.lookup_assign_self (k v : String) (b : Body) :
    Body.lookup k (Body.assign k v b) = some v := by
  induction b with
  | nil => simp [Body.assign, Body.lookup]
  | cons kv rest ih =>
    obtain ⟨k', v'⟩ := kv
    by_cases hk : k' = k
    · simp [Body.assign, Body.lookup, hk]
    · simp [Body.assign, Body.lookup, hk, ih]

theorem Body.lookup_assign_other (k v j : String) (b : Body) (hj : j ≠ k) :
    Body.lookup j (Body.assign k v b) = Body.lookup j b := by
  induction b with
  | nil => simp [Body.assign, Body.lookup, Ne.symm hj]
  | cons kv rest ih =>
    obtain ⟨k', v'⟩ := kv
    by_cases hk : k' = k
    · subst hk
      simp [Body.assign, Body.lookup, Ne.symm hj]
    · by_cases hkj : k' = j
      · subst hkj
        simp [Body.assign, Body.lookup, hk]
      · simp [Body.assign, Body.lookup, hk, hkj, ih]

theorem Body.filter_assign (k v : String) (b : Body) :
    (Body.assign k v b).filter (fun kv => !decide (kv.1 = k)) =
      b.filter (fun kv => !decide (kv.1 = k)) := by
  induction b with
  | nil => simp [Body.assign]
  | cons kv rest ih =>
    obtain ⟨k', v'⟩ := kv
    by_cases hk : k' = k
    · simp [Body.assign, hk]
    · simp [Body.assign, hk, ih]

/-! ## The record store -/

theorem Store.findById_findByIdAndDelete (db : Store) (id : String) :
    (db.findByIdAndDelete id).2.findById id = none := by
  simp [Store.findByIdAndDelete, Store.findById, List.find?_eq_none]

/-! ## Read -/

/-- The populated owner, when there is one, carries the id the record refers to. -/
theorem Store.populate_owner_id (db : Store) (r : Resource) (u : User)
    (hu : (db.populate r).createdBy = some u) : u._id = r.createdBy := by
  have h := List.find?_some hu
  simpa using h

/-- On GET /:id (`getResource`, no role gate), for every principal and every existing
record whose owner is still a user, the populated record is returned with status 200
exactly when the principal is its owner or has role admin or moderator; in every other
case the request ends with the 401 authorization error.  The store is only read. -/
theorem getResource_of_resolved_owner (p : Principal) (id : String) (body : ReqBody)
    (db : Store) (r : Resource) (u : User) (h : db.findById id = some r)
    (hu : (db.populate r).createdBy = some u) :
    router (.get id) (some p) body db = getResource ⟨p, id, body⟩ db ∧
    ((getResource ⟨p, id, body⟩ db).response = .json 200 (.populated (db.populate r)) ↔
      (r.createdBy = p.id ∨ p.role = "admin" ∨ p.role = "moderator")) ∧
    (¬ (r.createdBy = p.id ∨ p.role = "admin" ∨ p.role = "moderator") →
      (getResource ⟨p, id, body⟩ db).response =
        .error ⟨"User " ++ p.id ++ " is not authorized to access this resource", 401⟩) ∧
    (getResource ⟨p, id, body⟩ db).store = db ∧
    (getResource ⟨p, id, body⟩ db).calls = [.findById id] := by
  have hid : u._id = r.createdBy := Store.populate_owner_id db r u hu
  refine ⟨by simp [router, protect], ?_, ?_, ?_, ?_⟩
  · by_cases hc : u._id ≠ p.id ∧ p.role ≠ "admin" ∧ p.role ≠ "moderator"
    · have hn : ¬ (r.createdBy = p.id ∨ p.role = "admin" ∨ p.role = "moderator") := by
        rintro (h1 | h1 | h1)
        · exact hc.1 (hid.trans h1)
        · exact hc.2.1 h1
        · exact hc.2.2 h1
      simp only [getResource, h, hu, if_pos hc]
      simp [hn]
    · have hy : r.createdBy = p.id ∨ p.role = "admin" ∨ p.role = "moderator" := by
        by_contra hcon
        push_neg at hcon
        exact hc ⟨fun h1 => hcon.1 (hid.symm.trans h1), hcon.2.1, hcon.2.2⟩
      simp only [getResource, h, hu, if_neg hc]
      simp [hy]
  · intro hn
    push_neg at hn
    have hc : u._id ≠ p.id ∧ p.role ≠ "admin" ∧ p.role ≠ "moderator" :=
      ⟨fun h1 => hn.1 (hid.symm.trans h1), hn.2.1, hn.2.2⟩
    simp only [getResource, h, hu, if_pos hc]
  · simp only [getResource, h, hu]
    split <;> rfl
  · simp only [getResource, h, hu]
    split <;> rfl

/-- On GET /:id, for every principal, an existing record whose owner is no longer a user
ends the request with the thrown `TypeError`, whatever the principal's role. -/
theorem getResource_of_removed_owner (p : Principal) (id : String) (body : ReqBody)
    (db : Store) (r : Resource) (h : db.findById id = some r)
    (hu : (db.populate r).createdBy = none) :
    router (.get id) (some p) body db =
      ⟨.thrown "TypeError: Cannot read properties of null (reading '_id')", db,
       [.findById id]⟩ := by
  simp only [router, protect, getResource, h, hu]

/-- C1 fails on the code: once admin `u9` has removed user `u2` with `deleteUser`, record
`r1`, which `u2` created, still exists, and GET /:id on it throws a `TypeError` for admin
`u9` and for moderator `u1` alike, where the claim (and the comment above the check) lets
an admin or a moderator read every existing record. -/
theorem getResource_throws_on_removed_owner :
    (deleteUser ⟨⟨"u9", "admin"⟩, "u2", .object []⟩ sampleStore).store.findById "r1" =
      some ⟨"r1", "u2", [("title", "first")]⟩ ∧
    router (.get "r1") (some ⟨"u9", "admin"⟩) (.object [])
        (deleteUser ⟨⟨"u9", "admin"⟩, "u2", .object []⟩ sampleStore).store =
      ⟨.thrown "TypeError: Cannot read properties of null (reading '_id')",
       (deleteUser ⟨⟨"u9", "admin"⟩, "u2", .object []⟩ sampleStore).store,
       [.findById "r1"]⟩ ∧
    (router (.get "r1") (some ⟨"u9", "admin"⟩) (.object [])
        (deleteUser ⟨⟨"u9", "admin"⟩, "u2", .object []⟩ sampleStore).store).allowed = false ∧
    (router (.get "r1") (some ⟨"u1", "moderator"⟩) (.object [])
        (deleteUser ⟨⟨"u9", "admin"⟩, "u2", .object []⟩ sampleStore).store).allowed = false ∧
    (router (.get "r1") (some ⟨"u9", "admin"⟩) (.object []) sampleStore).allowed = true := by
  decide

/-! ## Delete -/

/-- C2: on DELETE /:id (`authorize('admin')`, then `deleteResource`), for every principal
and every existing record, the record is deleted exactly when the principal has role
admin.  An admin gets status 200 and the record is gone from the store; every other
principal is stopped by the gate and the store is untouched.  The owner of the record
does not occur in either outcome. -/
theorem delete_allowed_iff_admin (p : Principal) (id : String) (body : ReqBody) (db : Store)
    (r : Resource) (h : db.findById id = some r) :
    (p.role = "admin" →
      router (.delete id) (some p) body db =
        ⟨.json 200 .empty, (db.findByIdAndDelete id).2,
         [.findById id, .findByIdAndDelete id]⟩ ∧
      (router (.delete id) (some p) body db).store.findById id = none) ∧
    (p.role ≠ "admin" →
      router (.delete id) (some p) body db = ⟨.denied .InsufficientRole, db, []⟩) ∧
    (StoreCall.findByIdAndDelete id ∈ (router (.delete id) (some p) body db).calls ↔
      p.role = "admin") := by
  have hadmin : p.role = "admin" →
      router (.delete id) (some p) body db =
        ⟨.json 200 .empty, (db.findByIdAndDelete id).2,
         [.findById id, .findByIdAndDelete id]⟩ := by
    intro hr
    simp [router, protect, gated, authorize, deleteResource, h, hr]
  have hother : p.role ≠ "admin" →
      router (.delete id) (some p) body db = ⟨.denied .InsufficientRole, db, []⟩ := by
    intro hr
    simp [router, protect, gated, authorize, hr]
  refine ⟨fun hr => ⟨hadmin hr, ?_⟩, hother, ?_⟩
  · rw [hadmin hr]
    exact Store.findById_findByIdAndDelete db id
  · by_cases hr : p.role = "admin"
    · simp [hadmin hr, hr]
    · simp [hother hr, hr]

/-- Witness of C2: admin `u9` deletes record `r1`, which `u2` owns. -/
theorem delete_allowed_iff_admin_witness :
    sampleStore.findById "r1" = some ⟨"r1", "u2", [("title", "first")]⟩ ∧
    (router (.delete "r1") (some ⟨"u9", "admin"⟩) (.object []) sampleStore).store.findById
      "r1" = none :=
  ⟨by decide,
   ((delete_allowed_iff_admin ⟨"u9", "admin"⟩ "r1" (.object []) sampleStore
      ⟨"r1", "u2", [("title", "first")]⟩ (by decide)).1 (by decide)).2⟩

/-! ## Update -/

/-- What `updateResource` returns once the ownership check has passed on an existing
record and the body is a JSON object. -/
theorem updateResource_of_pass (p : Principal) (id : String) (fields : Body) (db : Store)
    (r : Resource) (h : db.findById id = some r)
    (hpass : r.createdBy = p.id ∨ p.role = "admin") :
    updateResource ⟨p, id, .object fields⟩ db =
      ⟨.json 200 (.one (db.updateById id fields).1), (db.updateById id fields).2,
       [.findById id, .findByIdAndUpdate id (.object fields)]⟩ := by
  have hc : ¬ (r.createdBy ≠ p.id ∧ p.role ≠ "admin") := by
    rintro ⟨h1, h2⟩
    rcases hpass with h3 | h3
    · exact h1 h3
    · exact h2 h3
  simp only [updateResource, h, if_neg hc, Store.findByIdAndUpdate]

/-- Store calls of `updateResource` once the ownership check has passed on an existing
record, for any body: the update is issued with the body as it came. -/
theorem updateResource_calls_of_pass (req : Request) (db : Store) (r : Resource)
    (h : db.findById req.id = some r)
    (hpass : r.createdBy = req.user.id ∨ req.user.role = "admin") :
    (updateResource req db).calls =
      [.findById req.id, .findByIdAndUpdate req.id req.body] := by
  have hc : ¬ (r.createdBy ≠ req.user.id ∧ req.user.role ≠ "admin") := by
    rintro ⟨h1, h2⟩
    rcases hpass with h3 | h3
    · exact h1 h3
    · exact h2 h3
  simp only [updateResource, h, if_neg hc]
  split <;> rfl

/-- What `updateResource` returns when the ownership check fails on an existing record. -/
theorem updateResource_of_fail (req : Request) (db : Store) (r : Resource)
    (h : db.findById req.id = some r) (hown : r.createdBy ≠ req.user.id)
    (hrole : req.user.role ≠ "admin") :
    updateResource req db =
      ⟨.error ⟨"User " ++ req.user.id ++ " is not authorized to update this resource", 401⟩,
       db, [.findById req.id]⟩ := by
  have hc : r.createdBy ≠ req.user.id ∧ req.user.role ≠ "admin" := ⟨hown, hrole⟩
  simp only [updateResource, h, if_pos hc]

/-- C3, as the claim states it, fails: on the full PUT /:id chain member `u1` is not allowed
to update record `r2`, which `u1` owns, and on record `r1`, owned by `u2`, the denial is
the gate's `InsufficientRole`, not the handler's 401 error. -/
theorem member_owner_update_stopped_by_gate :
    sampleStore.findById "r2" = some ⟨"r2", "u1", [("title", "second")]⟩ ∧
    router (.put "r2") (some ⟨"u1", "member"⟩) (.object [("title", "changed")]) sampleStore =
      ⟨.denied .InsufficientRole, sampleStore, []⟩ ∧
    (router (.put "r2") (some ⟨"u1", "member"⟩) (.object [("title", "changed")])
      sampleStore).allowed = false ∧
    sampleStore.findById "r1" = some ⟨"r1", "u2", [("title", "first")]⟩ ∧
    router (.put "r1") (some ⟨"u1", "member"⟩) (.object [("title", "changed")]) sampleStore =
      ⟨.denied .InsufficientRole, sampleStore, []⟩ := by
  decide

/-- C3, amended: on the full PUT /:id chain every principal with role member is stopped by
the gate `authorize('moderator', 'admin')` with `InsufficientRole`, whoever owns the
record, whether or not it exists and whatever the body; the store is neither read nor
written.  The handler `updateResource` on its own, without the gate, allows a member to
update a record the member owns (the update is issued with the body, and a JSON object is
written and answered with status 200) and answers the 401 error on a record somebody else
owns. -/
theorem member_update_denied_by_gate (p : Principal) (id : String) (body : ReqBody)
    (fields : Body) (db : Store) (hrole : p.role = "member") :
    router (.put id) (some p) body db = ⟨.denied .InsufficientRole, db, []⟩ ∧
    (∀ r, db.findById id = some r →
      (r.createdBy = p.id →
        updateResource ⟨p, id, .object fields⟩ db =
          ⟨.json 200 (.one (db.updateById id fields).1), (db.updateById id fields).2,
           [.findById id, .findByIdAndUpdate id (.object fields)]⟩ ∧
        (updateResource ⟨p, id, body⟩ db).calls =
          [.findById id, .findByIdAndUpdate id body]) ∧
      (r.createdBy ≠ p.id →
        updateResource ⟨p, id, body⟩ db =
          ⟨.error ⟨"User " ++ p.id ++ " is not authorized to update this resource", 401⟩,
           db, [.findById id]⟩)) := by
  refine ⟨by simp [router, protect, gated, authorize, hrole], ?_⟩
  intro r h
  refine ⟨fun hown => ⟨?_, ?_⟩, fun hown => ?_⟩
  · exact updateResource_of_pass p id fields db r h (Or.inl hown)
  · exact updateResource_calls_of_pass ⟨p, id, body⟩ db r h (Or.inl hown)
  · exact updateResource_of_fail ⟨p, id, body⟩ db r h hown (by simp [hrole])

/-- Witness of the amended C3: member `u1` on record `r2`. -/
theorem member_update_denied_by_gate_witness :
    (⟨"u1", "member"⟩ : Principal).role = "member" ∧
    router (.put "r2") (some ⟨"u1", "member"⟩) (.object []) sampleStore =
      ⟨.denied .InsufficientRole, sampleStore, []⟩ :=
  ⟨rfl, (member_update_denied_by_gate ⟨"u1", "member"⟩ "r2" (.object []) [] sampleStore
    rfl).1⟩

/-- C4: on PUT /:id, for every existing record, a moderator who is not the owner gets the
401 authorization error and nothing is written (the store is unchanged and no update is
issued), whatever the body; an admin's update of the same record goes through; a
moderator's update of a record the moderator owns goes through.  Going through: the update
is issued with the body, and a JSON object is written and answered with status 200. -/
theorem update_moderator_admin_asymmetry (uid : String) (id : String) (body : ReqBody)
    (fields : Body) (db : Store) (r : Resource) (h : db.findById id = some r) :
    (r.createdBy ≠ uid →
      router (.put id) (some ⟨uid, "moderator"⟩) body db =
        ⟨.error ⟨"User " ++ uid ++ " is not authorized to update this resource", 401⟩,
         db, [.findById id]⟩) ∧
    (router (.put id) (some ⟨uid, "admin"⟩) (.object fields) db =
      ⟨.json 200 (.one (db.updateById id fields).1), (db.updateById id fields).2,
       [.findById id, .findByIdAndUpdate id (.object fields)]⟩ ∧
     (router (.put id) (some ⟨uid, "admin"⟩) body db).calls =
       [.findById id, .findByIdAndUpdate id body]) ∧
    (r.createdBy = uid →
      router (.put id) (some ⟨uid, "moderator"⟩) (.object fields) db =
        ⟨.json 200 (.one (db.updateById id fields).1), (db.updateById id fields).2,
         [.findById id, .findByIdAndUpdate id (.object fields)]⟩ ∧
      (router (.put id) (some ⟨uid, "moderator"⟩) body db).calls =
        [.findById id, .findByIdAndUpdate id body]) := by
  have hmod : ∀ b : ReqBody, router (.put id) (some ⟨uid, "moderator"⟩) b db =
      updateResource ⟨⟨uid, "moderator"⟩, id, b⟩ db := by
    intro b
    simp [router, protect, gated, authorize]
  have hadm : ∀ b : ReqBody, router (.put id) (some ⟨uid, "admin"⟩) b db =
      updateResource ⟨⟨uid, "admin"⟩, id, b⟩ db := by
    intro b
    simp [router, protect, gated, authorize]
  refine ⟨fun hown => ?_, ⟨?_, ?_⟩, fun hown => ⟨?_, ?_⟩⟩
  · rw [hmod]
    exact updateResource_of_fail ⟨⟨uid, "moderator"⟩, id, body⟩ db r h hown
      (by simp)
  · rw [hadm]
    exact updateResource_of_pass ⟨uid, "admin"⟩ id fields db r h (Or.inr rfl)
  · rw [hadm]
    exact updateResource_calls_of_pass ⟨⟨uid, "admin"⟩, id, body⟩ db r h (Or.inr rfl)
  · rw [hmod]
    exact updateResource_of_pass ⟨uid, "moderator"⟩ id fields db r h (Or.inl hown)
  · rw [hmod]
    exact updateResource_calls_of_pass ⟨⟨uid, "moderator"⟩, id, body⟩ db r h (Or.inl hown)

/-- Witness of C4: moderator `u1` on record `r1`, which `u2` owns. -/
theorem update_moderator_admin_asymmetry_witness :
    sampleStore.findById "r1" = some ⟨"r1", "u2", [("title", "first")]⟩ ∧
    router (.put "r1") (some ⟨"u1", "moderator"⟩) (.object [("title", "changed")])
        sampleStore =
      ⟨.error ⟨"User " ++ "u1" ++ " is not authorized to update this resource", 401⟩,
       sampleStore, [.findById "r1"]⟩ :=
  ⟨by decide,
   (update_moderator_admin_asymmetry "u1" "r1" (.object [("title", "changed")]) []
      sampleStore ⟨"r1", "u2", [("title", "first")]⟩ (by decide)).1 (by decide)⟩

/-! ## Create -/

/-- For every principal and every body that is a JSON object, `createResource` hands the
store the body with `createdBy` set to the principal's id, whatever `createdBy` the body
carried; every other key reads as in the body and the entries under other keys are the
same, in the same order.  The stored record has the principal as owner. -/
theorem createResource_object_owner_is_principal (p : Principal) (id : String)
    (fields : Body) (db : Store) :
    createResource ⟨p, id, .object fields⟩ db =
      ⟨.json 201 (.one (some ⟨toString db.nextId, p.id,
          fields.filter (fun kv => !decide (kv.1 = "createdBy"))⟩)),
       ⟨db.resources ++ [⟨toString db.nextId, p.id,
          fields.filter (fun kv => !decide (kv.1 = "createdBy"))⟩], db.nextId + 1, db.users⟩,
       [.create (.object (Body.assign "createdBy" p.id fields))]⟩ ∧
    Body.lookup "createdBy" (Body.assign "createdBy" p.id fields) = some p.id ∧
    (∀ k, k ≠ "createdBy" →
      Body.lookup k (Body.assign "createdBy" p.id fields) = Body.lookup k fields) ∧
    (Body.assign "createdBy" p.id fields).filter (fun kv => !decide (kv.1 = "createdBy")) =
      fields.filter (fun kv => !decide (kv.1 = "createdBy")) := by
  refine ⟨?_, Body.lookup_assign_self _ _ _, fun k hk => Body.lookup_assign_other _ _ _ _ hk,
    Body.filter_assign _ _ _⟩
  simp [createResource, ReqBody.assign, Store.create, Store.insert, Body.lookup_assign_self,
    Body.filter_assign]

/-- C5 fails on the code: when the body is a JSON array, `createResource` sets `createdBy`
on the array object, and `Resource.create` saves each element as it came.  Here moderator
`u1` posts `[{ createdBy: "u2", title: "t" }]`: the array handed to the store still holds
the element with `createdBy` `u2`, the request is answered with status 201, and the new
record is owned by `u2`, not by `u1`. -/
theorem createResource_array_keeps_client_owner :
    router .post (some ⟨"u1", "moderator"⟩)
        (.array [[("createdBy", "u2"), ("title", "t")]] []) sampleStore =
      ⟨.json 201 (.docs [⟨"2", "u2", [("title", "t")]⟩]),
       ⟨sampleStore.resources ++ [⟨"2", "u2", [("title", "t")]⟩], 3, sampleStore.users⟩,
       [.create (.array [[("createdBy", "u2"), ("title", "t")]] [("createdBy", "u1")])]⟩ ∧
    (router .post (some ⟨"u1", "moderator"⟩)
        (.array [[("createdBy", "u2"), ("title", "t")]] []) sampleStore).store.findById "2" =
      some ⟨"2", "u2", [("title", "t")]⟩ := by
  decide

/-! ## List -/

/-- C6: `getResources` (GET /, no role gate) issues one query.  For an admin or a
moderator the query has no filter and the response carries every record of the store.
For any other role the query itself is filtered on `createdBy` being the principal's id:
the response carries exactly the records of the store the principal owns. -/
theorem getResources_scoped_by_query (req : Request) (db : Store) :
    router .list (some req.user) req.body db = getResources ⟨req.user, "", req.body⟩ db ∧
    (req.user.role = "admin" ∨ req.user.role = "moderator" →
      getResources req db =
        ⟨.json 200 (.many db.resources.length db.resources), db, [.find none]⟩) ∧
    (req.user.role ≠ "admin" ∧ req.user.role ≠ "moderator" →
      getResources req db =
        ⟨.json 200 (.many (db.find (some req.user.id)).length (db.find (some req.user.id))),
         db, [.find (some req.user.id)]⟩ ∧
      (∀ r, r ∈ (getResources req db).listed → r.createdBy = req.user.id) ∧
      (∀ r, r ∈ db.resources → r.createdBy = req.user.id →
        r ∈ (getResources req db).listed)) := by
  refine ⟨by simp [router, protect], ?_, ?_⟩
  · rintro (hr | hr)
    · simp [getResources, Store.find, hr]
    · simp [getResources, Store.find, hr]
  · rintro ⟨ha, hm⟩
    have hrun : getResources req db =
        ⟨.json 200 (.many (db.find (some req.user.id)).length (db.find (some req.user.id))),
         db, [.find (some req.user.id)]⟩ := by
      simp [getResources, ha, hm]
    refine ⟨hrun, ?_, ?_⟩
    · intro r hmem
      rw [hrun] at hmem
      simp [Run.listed, Store.find] at hmem
      exact hmem.2
    · intro r hmem hown
      rw [hrun]
      simp [Run.listed, Store.find, hmem, hown]

/-- Witness of C6: member `u1` lists the sample store and gets `r2` only. -/
theorem getResources_scoped_by_query_witness :
    getResources ⟨⟨"u1", "member"⟩, "", .object []⟩ sampleStore =
      ⟨.json 200 (.many 1 [⟨"r2", "u1", [("title", "second")]⟩]), sampleStore,
       [.find (some "u1")]⟩ := by
  rw [((getResources_scoped_by_query ⟨⟨"u1", "member"⟩, "", .object []⟩ sampleStore).2.2
    ⟨by decide, by decide⟩).1]
  decide

/-! ## Ownership after an update -/

/-- C7 fails on the code: `updateResource` hands `req.body` to the store as it is, so an
allowed update whose body carries `createdBy` moves the record to another owner.  Here
moderator `u1` updates record `r2`, which `u1` owns, with the body `{ createdBy: "u2" }`:
the update is issued with that body, answered with status 200, and `r2` is owned by `u2`
afterwards. -/
theorem updateResource_reassigns_owner :
    sampleStore.findById "r2" = some ⟨"r2", "u1", [("title", "second")]⟩ ∧
    router (.put "r2") (some ⟨"u1", "moderator"⟩) (.object [("createdBy", "u2")])
        sampleStore =
      ⟨.json 200 (.one (some ⟨"r2", "u2", [("title", "second")]⟩)),
       ⟨[⟨"r1", "u2", [("title", "first")]⟩, ⟨"r2", "u2", [("title", "second")]⟩], 2,
        sampleStore.users⟩,
       [.findById "r2", .findByIdAndUpdate "r2" (.object [("createdBy", "u2")])]⟩ ∧
    (router (.put "r2") (some ⟨"u1", "moderator"⟩) (.object [("createdBy", "u2")])
        sampleStore).store.findById "r2" = some ⟨"r2", "u2", [("title", "second")]⟩ := by
  decide

/-! ## The role gate -/

/-- C8: on POST / and PUT /:id every principal whose role is neither moderator nor admin,
and on DELETE /:id every principal whose role is not admin, is stopped with
`InsufficientRole`; no store call is issued and the store is unchanged, so the handler and
its record lookup are not run.  Nothing is assumed about the record: it may or may not
exist.  In particular a moderator's DELETE is stopped with `InsufficientRole`. -/
theorem gate_denies_before_lookup (p : Principal) (id : String) (body : ReqBody)
    (db : Store) :
    (p.role ∉ ["moderator", "admin"] →
      router .post (some p) body db = ⟨.denied .InsufficientRole, db, []⟩ ∧
      router (.put id) (some p) body db = ⟨.denied .InsufficientRole, db, []⟩) ∧
    (p.role ∉ ["admin"] →
      router (.delete id) (some p) body db = ⟨.denied .InsufficientRole, db, []⟩) ∧
    router (.delete id) (some ⟨p.id, "moderator"⟩) body db =
      ⟨.denied .InsufficientRole, db, []⟩ := by
  refine ⟨fun hr => ⟨?_, ?_⟩, fun hr => ?_, ?_⟩
  · simp only [router, protect, gated, authorize, if_neg hr]
  · simp only [router, protect, gated, authorize, if_neg hr]
  · simp only [router, protect, gated, authorize, if_neg hr]
  · simp [router, protect, gated, authorize]

/-- Witness of C8: member `u1` deleting an id that is not in the store. -/
theorem gate_denies_before_lookup_witness :
    sampleStore.findById "nope" = none ∧
    router (.delete "nope") (some ⟨"u1", "member"⟩) (.object []) sampleStore =
      ⟨.denied .InsufficientRole, sampleStore, []⟩ :=
  ⟨by decide,
   (gate_denies_before_lookup ⟨"u1", "member"⟩ "nope" (.object []) sampleStore).2.1
     (by decide)⟩

/-! ## Existence before ownership -/

/-- C9: when the lookup finds no record, `getResource`, `updateResource` and
`deleteResource` each answer the 404 error, for every principal; the only store call is the
lookup and the store is unchanged, so no update or delete is issued. -/
theorem notFound_before_ownership (req : Request) (db : Store)
    (h : db.findById req.id = none) :
    getResource req db =
      ⟨.error ⟨"Resource not found with id of " ++ req.id, 404⟩, db, [.findById req.id]⟩ ∧
    updateResource req db =
      ⟨.error ⟨"Resource not found with id of " ++ req.id, 404⟩, db, [.findById req.id]⟩ ∧
    deleteResource req db =
      ⟨.error ⟨"Resource not found with id of " ++ req.id, 404⟩, db, [.findById req.id]⟩ := by
  refine ⟨?_, ?_, ?_⟩
  · simp only [getResource, h]
  · simp only [updateResource, h]
  · simp only [deleteResource, h]

/-- Witness of C9: member `u1` updating an id that is not in the store. -/
theorem notFound_before_ownership_witness :
    sampleStore.findById "nope" = none ∧
    updateResource ⟨⟨"u1", "member"⟩, "nope", .object []⟩ sampleStore =
      ⟨.error ⟨"Resource not found with id of " ++ "nope", 404⟩, sampleStore,
       [.findById "nope"]⟩ :=
  ⟨by decide,
   (notFound_before_ownership ⟨⟨"u1", "member"⟩, "nope", .object []⟩ sampleStore
     (by decide)).2.1⟩

/-! ## Role monotonicity -/

/-- Whether `createResource` succeeds does not depend on the principal. -/
theorem createResource_allowed_indep (p q : Principal) (id : String) (body : ReqBody)
    (db : Store) :
    (createResource ⟨p, id, body⟩ db).allowed = (createResource ⟨q, id, body⟩ db).allowed := by
  cases body with
  | object fields =>
    simp [createResource, ReqBody.assign, Store.create, Store.insert,
      Body.lookup_assign_self, Run.allowed]
  | array items props =>
    simp only [createResource, ReqBody.assign, Store.create]
    cases h : db.insertEach items with
    | mk res db' =>
      cases res with
      | error reason => simp [Run.allowed]
      | ok saved => simp [Run.allowed]

/-- C10: for every identity, every route of the resource router (list, create, read,
update, delete, on any record id), every body and every store, a request the chain answers
successfully for role member is answered successfully for role moderator with the same
identity, and one answered successfully for moderator is answered successfully for admin.
For the list route the records returned to a member are among those returned to a
moderator, which are the records returned to an admin. -/
theorem role_monotonicity (uid : String) (route : Route) (body : ReqBody) (db : Store) :
    ((router route (some ⟨uid, "member"⟩) body db).allowed = true →
      (router route (some ⟨uid, "moderator"⟩) body db).allowed = true) ∧
    ((router route (some ⟨uid, "moderator"⟩) body db).allowed = true →
      (router route (some ⟨uid, "admin"⟩) body db).allowed = true) ∧
    (router .list (some ⟨uid, "member"⟩) body db).listed ⊆
      (router .list (some ⟨uid, "moderator"⟩) body db).listed ∧
    (router .list (some ⟨uid, "moderator"⟩) body db).listed =
      (router .list (some ⟨uid, "admin"⟩) body db).listed := by
  refine ⟨?_, ?_, ?_, ?_⟩
  · cases route with
    | list => simp [router, protect, getResources, Run.allowed]
    | post => simp [router, protect, gated, authorize, Run.allowed]
    | get id =>
      cases h : db.findById id with
      | none => simp [router, protect, getResource, h, Run.allowed]
      | some r =>
        cases hu : (db.populate r).createdBy with
        | none => simp [router, protect, getResource, h, hu, Run.allowed]
        | some u => simp [router, protect, getResource, h, hu, Run.allowed]
    | put id => simp [router, protect, gated, authorize, Run.allowed]
    | delete id => simp [router, protect, gated, authorize, Run.allowed]
  · cases route with
    | list => simp [router, protect, getResources, Run.allowed]
    | post =>
      have hmod : router .post (some ⟨uid, "moderator"⟩) body db =
          createResource ⟨⟨uid, "moderator"⟩, "", body⟩ db := by
        simp [router, protect, gated, authorize]
      have hadm : router .post (some ⟨uid, "admin"⟩) body db =
          createResource ⟨⟨uid, "admin"⟩, "", body⟩ db := by
        simp [router, protect, gated, authorize]
      rw [hmod, hadm, createResource_allowed_indep ⟨uid, "moderator"⟩ ⟨uid, "admin"⟩]
      exact id
    | get id =>
      cases h : db.findById id with
      | none => simp [router, protect, getResource, h, Run.allowed]
      | some r =>
        cases hu : (db.populate r).createdBy with
        | none => simp [router, protect, getResource, h, hu, Run.allowed]
        | some u => simp [router, protect, getResource, h, hu, Run.allowed]
    | put id =>
      cases h : db.findById id with
      | none => simp [router, protect, gated, authorize, updateResource, h, Run.allowed]
      | some r =>
        cases body with
        | object fields =>
          simp [router, protect, gated, authorize, updateResource, Store.findByIdAndUpdate, h,
            Run.allowed]
        | array items props =>
          by_cases hown : r.createdBy = uid
          · simp [router, protect, gated, authorize, updateResource,
              Store.findByIdAndUpdate, h, hown, Run.allowed]
          · simp [router, protect, gated, authorize, updateResource,
              Store.findByIdAndUpdate, h, hown, Run.allowed]
    | delete id => simp [router, protect, gated, authorize, Run.allowed]
  · intro r hr
    simp [router, protect, getResources, Run.listed, Store.find] at hr ⊢
    exact hr.1
  · simp [router, protect, getResources, Run.listed, Store.find]

/-- Witness of C10: `u1` reads its own record `r2` as a member, hence also as a moderator. -/
theorem role_monotonicity_witness :
    (router (.get "r2") (some ⟨"u1", "member"⟩) (.object []) sampleStore).allowed = true ∧
    (router (.get "r2") (some ⟨"u1", "moderator"⟩) (.object []) sampleStore).allowed = true :=
  ⟨by decide, (role_monotonicity "u1" (.get "r2") (.object []) sampleStore).1 (by decide)⟩

end Rbac
